import Mathlib

/-!
# Verification of the marketing KPI toolkit

Shallow embedding of `src/marketing_kpi_toolkit.py`: the KPI aggregation
pipeline (`compute_daily_channel_kpis`), the channel summarizer
(`channel_summary`) and the response estimator (`simple_response_curve`).

Tables are modelled as lists of rows together with column-presence flags for
the optional columns the code probes with `in df.columns` / `df.get`.
Numeric cells are `Option ℚ` (`none` models a pandas missing value / NaN);
sums over groups skip missing values (pandas `sum` with default `skipna`),
which is `Option.getD 0` under summation.  Guarded ratio cells
(`np.where(den > 0, num/den, nan)`) are `Option ℚ`.  Grouping keys (dates,
channels, order ids) are strings; the row order of grouped output is
irrelevant to every property proved here, so groups are enumerated by
`List.dedup` of the key column.
-/

namespace MarketingKPI

/-- One row of the sessions sheet after cleaning: the fields that
`compute_daily_channel_kpis` reads. -/
structure SessionRow where
  date : String
  channel : String
  sessions : Option ℚ
  clicks : Option ℚ
  adjSpend : Option ℚ
  spendGbp : Option ℚ
deriving DecidableEq, Repr

/-- The sessions table: rows plus presence flags for the two optional spend
columns (`Adj_spend_gbp`, `Spend_gbp`) that line 65 of the source probes with
`DataFrame.get`. -/
structure SessionTable where
  hasAdjSpend : Bool
  hasSpendGbp : Bool
  rows : List SessionRow
deriving DecidableEq, Repr

/-- One row of the orders sheet after cleaning. -/
structure OrderRow where
  date : String
  channelFt : String
  channel : String
  orderId : String
  revenue : Option ℚ
deriving DecidableEq, Repr

/-- The orders table: rows plus presence flags for the two candidate channel
columns (`Channel_ft`, `Channel`) probed at line 75 of the source. -/
structure OrderTable where
  hasChannelFt : Bool
  hasChannel : Bool
  rows : List OrderRow
deriving DecidableEq, Repr

/-- Model of `np.where(den > 0, num / den, np.nan)`: the guarded ratio used
for all five KPI columns. -/
def guardedDiv (num den : ℚ) : Option ℚ :=
  if 0 < den then some (num / den) else none

/-- Line 65: `s["Spend"] = s.get("Adj_spend_gbp", s.get("Spend_gbp", 0.0)).fillna(0.0)`.
`DataFrame.get` selects a whole column when it is present, so the fallback is
at column level: when the `Adj_spend_gbp` column exists the row's value is its
adjusted cell with missing filled to 0, regardless of the raw spend cell.
When neither spend column is present, both `get` calls return the scalar
default `0.0` and `.fillna(0.0)` is invoked on a plain float, which raises
`AttributeError`; that error path is `none` here. -/
def effSpend (t : SessionTable) (r : SessionRow) : Option ℚ :=
  if t.hasAdjSpend then some (r.adjSpend.getD 0)
  else if t.hasSpendGbp then some (r.spendGbp.getD 0)
  else none

/-- The spend value the aggregator sums for one session row.  Whenever a
spend column is present this is exactly the value of `effSpend`; when
neither is present the program has already raised at line 65 and produces
no daily table at all, so the `getD` default of this total function is not
observable on a completed run — theorems about Spend therefore assume a
spend column is present. -/
def effSpendVal (t : SessionTable) (r : SessionRow) : ℚ :=
  (effSpend t r).getD 0

/-- The (Date, Channel) grouping key of a session row (line 68). -/
def sessionKey (r : SessionRow) : String × String :=
  (r.date, r.channel)

/-- The distinct (Date, Channel) keys of the sessions table: the groups of
`s.groupby(["Date", "Channel"])`. -/
def sessionKeys (t : SessionTable) : List (String × String) :=
  (t.rows.map sessionKey).dedup

/-- The session rows falling into group `k`. -/
def sessionGroup (t : SessionTable) (k : String × String) : List SessionRow :=
  t.rows.filter (fun r => sessionKey r = k)

/-- Lines 75–78: the resolved order-side channel of a row — the `Channel_ft`
column if present, else the `Channel` column, else the constant `"All"`. -/
def resolvedChannel (t : OrderTable) (r : OrderRow) : String :=
  if t.hasChannelFt then r.channelFt
  else if t.hasChannel then r.channel
  else "All"

/-- The (Date, resolved channel) grouping key of an order row (line 83). -/
def orderKey (t : OrderTable) (r : OrderRow) : String × String :=
  (r.date, resolvedChannel t r)

/-- The distinct (Date, resolved channel) keys of the orders table. -/
def orderKeys (t : OrderTable) : List (String × String) :=
  (t.rows.map (orderKey t)).dedup

/-- The order rows falling into group `k`. -/
def orderGroup (t : OrderTable) (k : String × String) : List OrderRow :=
  t.rows.filter (fun r => orderKey t r = k)

/-- Model of `Orders=("Order_id", "nunique")` (line 84): the number of distinct order
ids in the group, as a rational (the merged column is numeric).  For a key
with no matching order rows this is `0`, which coincides with the
`.fillna({"Orders": 0})` of the left join (line 91). -/
def ordersAt (t : OrderTable) (k : String × String) : ℚ :=
  (((orderGroup t k).map OrderRow.orderId).toFinset.card : ℚ)

/-- Model of `Revenue=("Revenue_gbp", "sum")` (line 85): NaN-skipping sum of revenue
over the group.  For a key with no matching order rows this is `0`, which
coincides with `.fillna({"Revenue": 0.0})` (line 91). -/
def revenueAt (t : OrderTable) (k : String × String) : ℚ :=
  ((orderGroup t k).map (fun r => r.revenue.getD 0)).sum

/-- One row per (Date, Channel) of the daily KPI table. -/
structure DailyRow where
  date : String
  channel : String
  Sessions : ℚ
  Clicks : ℚ
  Spend : ℚ
  Orders : ℚ
  Revenue : ℚ
  CVR : Option ℚ
  CPC_calc : Option ℚ
  CAC : Option ℚ
  AOV : Option ℚ
  ROAS : Option ℚ
deriving DecidableEq, Repr

/-- The daily KPI row for session group `k`: summed session counters, the
left-joined order aggregates, and the five guarded ratios (lines 67–99). -/
def mkDailyRow (s : SessionTable) (o : OrderTable) (k : String × String) :
    DailyRow :=
  let g := sessionGroup s k
  let sessionsSum := (g.map (fun r => r.sessions.getD 0)).sum
  let clicksSum := (g.map (fun r => r.clicks.getD 0)).sum
  let spendSum := (g.map (effSpendVal s)).sum
  let ordersVal := ordersAt o k
  let revenueVal := revenueAt o k
  { date := k.1
    channel := k.2
    Sessions := sessionsSum
    Clicks := clicksSum
    Spend := spendSum
    Orders := ordersVal
    Revenue := revenueVal
    CVR := guardedDiv ordersVal clicksSum
    CPC_calc := guardedDiv spendSum clicksSum
    CAC := guardedDiv spendSum ordersVal
    AOV := guardedDiv revenueVal ordersVal
    ROAS := guardedDiv revenueVal spendSum }

/-- Model of `compute_daily_channel_kpis` (lines 59–100): aggregate sessions and
orders to Date × Channel, left-join on the session keys, fill unmatched
order aggregates with 0/0.0, and derive the five KPI columns. -/
def compute_daily_channel_kpis (s : SessionTable) (o : OrderTable) :
    List DailyRow :=
  (sessionKeys s).map (mkDailyRow s o)

/-- One row per channel of the summary table. -/
structure SummaryRow where
  Channel : String
  Sessions : ℚ
  Clicks : ℚ
  Spend : ℚ
  Orders : ℚ
  Revenue : ℚ
  CVR : Option ℚ
  CPC : Option ℚ
  CAC : Option ℚ
  AOV : Option ℚ
  ROAS : Option ℚ
deriving DecidableEq, Repr

/-- The channel rows of the daily table falling under channel `c`. -/
def channelGroup (df : List DailyRow) (c : String) : List DailyRow :=
  df.filter (fun r => r.channel = c)

/-- The summary row for channel `c`: the five base counters summed over the
channel's daily rows, and the five ratios recomputed from those totals
(lines 108–120). -/
def mkSummaryRow (df : List DailyRow) (c : String) : SummaryRow :=
  let g := channelGroup df c
  let sessionsSum := (g.map DailyRow.Sessions).sum
  let clicksSum := (g.map DailyRow.Clicks).sum
  let spendSum := (g.map DailyRow.Spend).sum
  let ordersSum := (g.map DailyRow.Orders).sum
  let revenueSum := (g.map DailyRow.Revenue).sum
  { Channel := c
    Sessions := sessionsSum
    Clicks := clicksSum
    Spend := spendSum
    Orders := ordersSum
    Revenue := revenueSum
    CVR := guardedDiv ordersSum clicksSum
    CPC := guardedDiv spendSum clicksSum
    CAC := guardedDiv spendSum ordersSum
    AOV := guardedDiv revenueSum ordersSum
    ROAS := guardedDiv revenueSum spendSum }

/-- The comparison used by `sort_values("ROAS", ascending=False)` with the
default `na_position="last"`: a row may precede another iff the other is
NaN, or both are defined and the first is at least as large. -/
def roasBefore (a b : SummaryRow) : Bool :=
  match a.ROAS, b.ROAS with
  | some x, some y => decide (y ≤ x)
  | some _, none => true
  | none, none => true
  | none, some _ => false

/-- Propositional form of `roasBefore`. -/
def roasLE (a b : SummaryRow) : Prop :=
  roasBefore a b = true

instance : DecidableRel roasLE := fun a b => instDecidableEqBool _ _

instance : IsTotal SummaryRow roasLE where
  total a b := by
    unfold roasLE roasBefore
    cases a.ROAS with
    | none => cases b.ROAS <;> simp
    | some x =>
      cases b.ROAS with
      | none => simp
      | some y => simpa using le_total y x

instance : IsTrans SummaryRow roasLE where
  trans a b c hab hbc := by
    unfold roasLE roasBefore at *
    cases ha : a.ROAS with
    | none =>
      cases hb : b.ROAS with
      | none =>
        cases hc : c.ROAS with
        | none => simp
        | some z => simp [hb, hc] at hbc
      | some y => simp [ha, hb] at hab
    | some x =>
      cases hc : c.ROAS with
      | none => simp
      | some z =>
        cases hb : b.ROAS with
        | none => simp [hb, hc] at hbc
        | some y =>
          simp only [ha, hb, hc, decide_eq_true_eq] at *
          exact le_trans hbc hab

/-- Model of `channel_summary` (lines 103–121): collapse the daily table to channel
totals, recompute the KPI ratios on the aggregated values, and sort by ROAS
descending with undefined ROAS last. -/
def channel_summary (df : List DailyRow) : List SummaryRow :=
  List.insertionSort roasLE
    (((df.map DailyRow.channel).dedup).map (mkSummaryRow df))

/-- The distinct dates of the daily table: the groups of
`daily_df.groupby("Date")` (line 170). -/
def dailyDates (df : List DailyRow) : List String :=
  (df.map DailyRow.date).dedup

/-- Total revenue of one date across channels (line 171). -/
def dateRevenue (df : List DailyRow) (d : String) : ℚ :=
  ((df.filter (fun r => r.date = d)).map DailyRow.Revenue).sum

/-- Total spend of one date across channels (line 171). -/
def dateSpend (df : List DailyRow) (d : String) : ℚ :=
  ((df.filter (fun r => r.date = d)).map DailyRow.Spend).sum

/-- The per-date (Spend, Revenue) pairs the fit runs on.  The daily table's
`Revenue` and `Spend` columns are total rationals, so the source's
`.dropna(subset=["Revenue", "Spend"])` (line 172) removes nothing. -/
def fitPoints (df : List DailyRow) : List (ℚ × ℚ) :=
  (dailyDates df).map (fun d => (dateSpend df d, dateRevenue df d))

/-- Sum of the x coordinates of the fit points. -/
def sumX (pts : List (ℚ × ℚ)) : ℚ := (pts.map Prod.fst).sum

/-- Sum of the y coordinates. -/
def sumY (pts : List (ℚ × ℚ)) : ℚ := (pts.map Prod.snd).sum

/-- Sum of the squared x coordinates. -/
def sumXX (pts : List (ℚ × ℚ)) : ℚ := (pts.map (fun p => p.1 ^ 2)).sum

/-- Sum of the products x·y. -/
def sumXY (pts : List (ℚ × ℚ)) : ℚ := (pts.map (fun p => p.1 * p.2)).sum

/-- Sum of the squared y coordinates. -/
def sumYY (pts : List (ℚ × ℚ)) : ℚ := (pts.map (fun p => p.2 ^ 2)).sum

/-- Model of `np.polyfit(x, y, 1)` (line 177), returning `(b, a)` —
highest-degree coefficient first, as numpy does.  In the full-rank case
(`n·Σx² − (Σx)² ≠ 0`) this is the unique ordinary-least-squares solution.
When all x values coincide the normal matrix is singular and numpy's
`lstsq` kernel returns a minimum-norm least-squares solution; the
closed form here is one such minimiser (the proofs below only use that it
minimises the sum of squared residuals, which holds for any least-squares
solution `lstsq` can return). -/
def polyfit1 (pts : List (ℚ × ℚ)) : ℚ × ℚ :=
  let n : ℚ := pts.length
  let d := n * sumXX pts - sumX pts ^ 2
  if d = 0 then
    let c := sumX pts / n
    let ybar := sumY pts / n
    (c * ybar / (1 + c ^ 2), ybar / (1 + c ^ 2))
  else
    ((n * sumXY pts - sumX pts * sumY pts) / d,
     (sumY pts * sumXX pts - sumX pts * sumXY pts) / d)

/-- Model of `simple_response_curve` (lines 163–191), restricted to its fit result:
collapse the daily table to per-date totals, return `none` when fewer than
two dates remain or total spend is zero, else the fitted `(a, b)` with
`Revenue ≈ a + b·Spend`. -/
def simple_response_curve (df : List DailyRow) : Option (ℚ × ℚ) :=
  let pts := fitPoints df
  if pts.length < 2 ∨ sumX pts = 0 then none
  else
    let ba := polyfit1 pts
    some (ba.2, ba.1)

/-- The full core pipeline as `main` composes it (lines 206–221): the daily
KPI table, the channel summary and the optional fit. -/
def corePipeline (s : SessionTable) (o : OrderTable) :
    List DailyRow × List SummaryRow × Option (ℚ × ℚ) :=
  let daily := compute_daily_channel_kpis s o
  (daily, channel_summary daily, simple_response_curve daily)

/-- Sum of squared residuals of the line `y = a + b·x` over the points. -/
def ssr (pts : List (ℚ × ℚ)) (a b : ℚ) : ℚ :=
  (pts.map (fun p => (p.2 - a - b * p.1) ^ 2)).sum

/-- The orders table with one extra row appended; used to state that a
duplicate order row does not change the distinct-order counts. -/
def appendOrder (t : OrderTable) (r : OrderRow) : OrderTable :=
  { t with rows := t.rows ++ [r] }

/-- Claim-side effective-spend rule, following the specification's words
("adjusted spend if present and non-missing, else raw spend, else 0") with
the fallback applied per cell.  Kept separate from `effSpend`, which models
the source's column-level `DataFrame.get` fallback, so the two can be
compared. -/
def effSpendSpec (t : SessionTable) (r : SessionRow) : ℚ :=
  if t.hasAdjSpend ∧ r.adjSpend.isSome then r.adjSpend.getD 0
  else if t.hasSpendGbp ∧ r.spendGbp.isSome then r.spendGbp.getD 0
  else 0

/-! ## Concrete tables used as counterexamples and witnesses -/

/-- Session table with both spend columns present, the adjusted cell missing
and the raw cell 5. -/
def sessionsC1 : SessionTable :=
  { hasAdjSpend := true, hasSpendGbp := true,
    rows := [{ date := "d1", channel := "A", sessions := some 10, clicks := some 4,
               adjSpend := none, spendGbp := some 5 }] }

/-- An orders table with a `Channel` column and no rows. -/
def emptyOrders : OrderTable :=
  { hasChannelFt := false, hasChannel := true, rows := [] }

/-- The daily row produced from `sessionsC1` and `emptyOrders`. -/
def dailyC1 : DailyRow :=
  { date := "d1", channel := "A", Sessions := 10, Clicks := 4, Spend := 0, Orders := 0,
    Revenue := 0, CVR := some 0, CPC_calc := some 0, CAC := none, AOV := none, ROAS := none }

/-- Two-date one-channel session table: spends 1 and 3. -/
def sessionsC2 : SessionTable :=
  { hasAdjSpend := false, hasSpendGbp := true,
    rows := [{ date := "d1", channel := "A", sessions := some 10, clicks := some 10,
               adjSpend := none, spendGbp := some 1 },
             { date := "d2", channel := "A", sessions := some 10, clicks := some 10,
               adjSpend := none, spendGbp := some 3 }] }

/-- Matching orders: revenue 1 on the first date, 9 on the second. -/
def ordersC2 : OrderTable :=
  { hasChannelFt := false, hasChannel := true,
    rows := [{ date := "d1", channelFt := "", channel := "A", orderId := "o1",
               revenue := some 1 },
             { date := "d2", channelFt := "", channel := "A", orderId := "o2",
               revenue := some 9 }] }

/-- First daily row of `compute_daily_channel_kpis sessionsC2 ordersC2`:
per-day ROAS 1. -/
def dailyC2a : DailyRow :=
  { date := "d1", channel := "A", Sessions := 10, Clicks := 10, Spend := 1, Orders := 1,
    Revenue := 1, CVR := some (1/10), CPC_calc := some (1/10), CAC := some 1,
    AOV := some 1, ROAS := some 1 }

/-- Second daily row: per-day ROAS 3. -/
def dailyC2b : DailyRow :=
  { date := "d2", channel := "A", Sessions := 10, Clicks := 10, Spend := 3, Orders := 1,
    Revenue := 9, CVR := some (1/10), CPC_calc := some (3/10), CAC := some 3,
    AOV := some 9, ROAS := some 3 }

/-- The channel summary of those two daily rows: ROAS is the ratio of sums
10/4 = 5/2, not the mean (1+3)/2 = 2 of the per-day ratios. -/
def summaryC2 : SummaryRow :=
  { Channel := "A", Sessions := 20, Clicks := 20, Spend := 4, Orders := 2, Revenue := 10,
    CVR := some (1/10), CPC := some (1/5), CAC := some 2, AOV := some 5,
    ROAS := some (5/2) }

/-- One-row session table on a single date. -/
def sessionsC5 : SessionTable :=
  { hasAdjSpend := false, hasSpendGbp := true,
    rows := [{ date := "d1", channel := "A", sessions := some 7, clicks := some 4,
               adjSpend := none, spendGbp := some 2 }] }

/-- An orders table with a single row of order id `"o1"`. -/
def ordersC5base : OrderTable :=
  { hasChannelFt := false, hasChannel := true,
    rows := [{ date := "d1", channelFt := "", channel := "A", orderId := "o1",
               revenue := some 2 }] }

/-- A second order row with the same (date, channel, order id) as the row of
`ordersC5base` but different revenue. -/
def dupRowC5 : OrderRow :=
  { date := "d1", channelFt := "", channel := "A", orderId := "o1", revenue := some 3 }

/-- The orders table with the duplicate row appended. -/
def ordersC5 : OrderTable := appendOrder ordersC5base dupRowC5

/-- The daily row produced from `sessionsC5` and `ordersC5`: two order rows
but `Orders = 1`, revenue summed to 5. -/
def dailyC5 : DailyRow :=
  { date := "d1", channel := "A", Sessions := 7, Clicks := 4, Spend := 2, Orders := 1,
    Revenue := 5, CVR := some (1/4), CPC_calc := some (1/2), CAC := some 2,
    AOV := some 5, ROAS := some (5/2) }

/-- The daily row produced from `sessionsC5` and `emptyOrders`: the left
join fills Orders/Revenue with 0. -/
def dailyC4 : DailyRow :=
  { date := "d1", channel := "A", Sessions := 7, Clicks := 4, Spend := 2, Orders := 0,
    Revenue := 0, CVR := some 0, CPC_calc := some (1/2), CAC := none, AOV := none,
    ROAS := some 0 }

/-- An orders table lacking both channel columns (their cell values are
present in the model but unreachable). -/
def ordersNoChannelCols : OrderTable :=
  { hasChannelFt := false, hasChannel := false,
    rows := [{ date := "d1", channelFt := "X", channel := "Y", orderId := "o1",
               revenue := some 1 }] }

/-- Daily table with three dates and totals (Spend, Revenue) =
(100, 150), (200, 250), (300, 350). -/
def dfC9 : List DailyRow :=
  [{ date := "d1", channel := "A", Sessions := 1, Clicks := 1, Spend := 100, Orders := 1,
     Revenue := 150, CVR := none, CPC_calc := none, CAC := none, AOV := none, ROAS := none },
   { date := "d2", channel := "A", Sessions := 1, Clicks := 1, Spend := 200, Orders := 1,
     Revenue := 250, CVR := none, CPC_calc := none, CAC := none, AOV := none, ROAS := none },
   { date := "d3", channel := "A", Sessions := 1, Clicks := 1, Spend := 300, Orders := 1,
     Revenue := 350, CVR := none, CPC_calc := none, CAC := none, AOV := none, ROAS := none }]

/-! ## Basic lemmas -/

theorem guardedDiv_eq_none_iff (num den : ℚ) :
    guardedDiv num den = none ↔ den ≤ 0 := by
  unfold guardedDiv
  by_cases h : 0 < den
  · simp [h, not_le.mpr h]
  · simp [h, not_lt.mp h]

theorem guardedDiv_of_pos (num : ℚ) {den : ℚ} (h : 0 < den) :
    guardedDiv num den = some (num / den) := by
  unfold guardedDiv
  simp [h]

theorem mem_compute_iff {s : SessionTable} {o : OrderTable} {r : DailyRow} :
    r ∈ compute_daily_channel_kpis s o ↔
      ∃ k ∈ sessionKeys s, r = mkDailyRow s o k := by
  unfold compute_daily_channel_kpis
  simp only [List.mem_map]
  exact ⟨fun ⟨k, hk, he⟩ => ⟨k, hk, he.symm⟩, fun ⟨k, hk, he⟩ => ⟨k, hk, he.symm⟩⟩

theorem mkDailyRow_key (s : SessionTable) (o : OrderTable) (k : String × String) :
    ((mkDailyRow s o k).date, (mkDailyRow s o k).channel) = k :=
  Prod.mk.eta

theorem mkDailyRow_Spend (s : SessionTable) (o : OrderTable) (k : String × String) :
    (mkDailyRow s o k).Spend = ((sessionGroup s k).map (effSpendVal s)).sum := rfl

theorem mkDailyRow_Sessions (s : SessionTable) (o : OrderTable) (k : String × String) :
    (mkDailyRow s o k).Sessions =
      ((sessionGroup s k).map (fun r => r.sessions.getD 0)).sum := rfl

theorem mkDailyRow_Clicks (s : SessionTable) (o : OrderTable) (k : String × String) :
    (mkDailyRow s o k).Clicks =
      ((sessionGroup s k).map (fun r => r.clicks.getD 0)).sum := rfl

theorem mkDailyRow_Orders (s : SessionTable) (o : OrderTable) (k : String × String) :
    (mkDailyRow s o k).Orders = ordersAt o k := rfl

theorem mkDailyRow_Revenue (s : SessionTable) (o : OrderTable) (k : String × String) :
    (mkDailyRow s o k).Revenue = revenueAt o k := rfl

theorem mkDailyRow_ratios (s : SessionTable) (o : OrderTable) (k : String × String) :
    (mkDailyRow s o k).CVR =
        guardedDiv (mkDailyRow s o k).Orders (mkDailyRow s o k).Clicks ∧
      (mkDailyRow s o k).CPC_calc =
        guardedDiv (mkDailyRow s o k).Spend (mkDailyRow s o k).Clicks ∧
      (mkDailyRow s o k).CAC =
        guardedDiv (mkDailyRow s o k).Spend (mkDailyRow s o k).Orders ∧
      (mkDailyRow s o k).AOV =
        guardedDiv (mkDailyRow s o k).Revenue (mkDailyRow s o k).Orders ∧
      (mkDailyRow s o k).ROAS =
        guardedDiv (mkDailyRow s o k).Revenue (mkDailyRow s o k).Spend :=
  ⟨rfl, rfl, rfl, rfl, rfl⟩

theorem mem_channel_summary_iff {df : List DailyRow} {r : SummaryRow} :
    r ∈ channel_summary df ↔
      ∃ c ∈ (df.map DailyRow.channel).dedup, r = mkSummaryRow df c := by
  unfold channel_summary
  rw [(List.perm_insertionSort _ _).mem_iff]
  simp only [List.mem_map]
  exact ⟨fun ⟨c, hc, he⟩ => ⟨c, hc, he.symm⟩, fun ⟨c, hc, he⟩ => ⟨c, hc, he.symm⟩⟩

theorem mkSummaryRow_Channel (df : List DailyRow) (c : String) :
    (mkSummaryRow df c).Channel = c := rfl

theorem mkSummaryRow_sums (df : List DailyRow) (c : String) :
    (mkSummaryRow df c).Sessions = ((channelGroup df c).map DailyRow.Sessions).sum ∧
      (mkSummaryRow df c).Clicks = ((channelGroup df c).map DailyRow.Clicks).sum ∧
      (mkSummaryRow df c).Spend = ((channelGroup df c).map DailyRow.Spend).sum ∧
      (mkSummaryRow df c).Orders = ((channelGroup df c).map DailyRow.Orders).sum ∧
      (mkSummaryRow df c).Revenue = ((channelGroup df c).map DailyRow.Revenue).sum :=
  ⟨rfl, rfl, rfl, rfl, rfl⟩

theorem mkSummaryRow_ratios (df : List DailyRow) (c : String) :
    (mkSummaryRow df c).CVR =
        guardedDiv (mkSummaryRow df c).Orders (mkSummaryRow df c).Clicks ∧
      (mkSummaryRow df c).CPC =
        guardedDiv (mkSummaryRow df c).Spend (mkSummaryRow df c).Clicks ∧
      (mkSummaryRow df c).CAC =
        guardedDiv (mkSummaryRow df c).Spend (mkSummaryRow df c).Orders ∧
      (mkSummaryRow df c).AOV =
        guardedDiv (mkSummaryRow df c).Revenue (mkSummaryRow df c).Orders ∧
      (mkSummaryRow df c).ROAS =
        guardedDiv (mkSummaryRow df c).Revenue (mkSummaryRow df c).Spend :=
  ⟨rfl, rfl, rfl, rfl, rfl⟩

/-! ## Duplicate order rows and the distinct-order count -/

theorem orderKey_appendOrder (o : OrderTable) (dup x : OrderRow) :
    orderKey (appendOrder o dup) x = orderKey o x := rfl

theorem orderGroup_appendOrder (o : OrderTable) (dup : OrderRow)
    (k : String × String) :
    orderGroup (appendOrder o dup) k =
      orderGroup o k ++ if orderKey o dup = k then [dup] else [] := by
  have hpred : orderKey (appendOrder o dup) = orderKey o := rfl
  have hrows : (appendOrder o dup).rows = o.rows ++ [dup] := rfl
  unfold orderGroup
  rw [hrows, List.filter_append]
  simp only [hpred]
  congr 1
  by_cases h : orderKey o dup = k <;> simp [h]

theorem ordersAt_append_dup {o : OrderTable} {dup : OrderRow}
    (h : ∃ x ∈ o.rows, orderKey o x = orderKey o dup ∧ x.orderId = dup.orderId)
    (k : String × String) : ordersAt (appendOrder o dup) k = ordersAt o k := by
  obtain ⟨x, hx, hkey, hid⟩ := h
  unfold ordersAt
  rw [orderGroup_appendOrder]
  by_cases hk : orderKey o dup = k
  · rw [if_pos hk, List.map_append, List.toFinset_append]
    have hxg : x ∈ orderGroup o k := by
      rw [orderGroup, List.mem_filter]
      exact ⟨hx, by simp [hkey, hk]⟩
    have hsub : ([dup].map OrderRow.orderId).toFinset ⊆
        ((orderGroup o k).map OrderRow.orderId).toFinset := by
      intro a ha
      simp only [List.map_cons, List.map_nil, List.toFinset_cons, List.toFinset_nil,
        insert_emptyc_eq, Finset.mem_singleton] at ha
      subst ha
      rw [List.mem_toFinset, List.mem_map]
      exact ⟨x, hxg, hid⟩
    rw [Finset.union_eq_left.mpr hsub]
  · rw [if_neg hk, List.append_nil]

/-! ## Concrete evaluations (shared by several claims) -/

theorem computeC1_eval :
    compute_daily_channel_kpis sessionsC1 emptyOrders = [dailyC1] := by
  have hk : sessionKeys sessionsC1 = [("d1", "A")] := by
    simp [sessionKeys, sessionKey, sessionsC1]
  rw [compute_daily_channel_kpis, hk]
  have h1 : mkDailyRow sessionsC1 emptyOrders ("d1", "A") = dailyC1 := by
    simp [mkDailyRow, sessionGroup, sessionKey, sessionsC1, emptyOrders, effSpend, effSpendVal,
      ordersAt, revenueAt, orderGroup, orderKey, resolvedChannel, guardedDiv, dailyC1,
      DailyRow.mk.injEq]
  rw [List.map_cons, List.map_nil, h1]

theorem computeC2_eval :
    compute_daily_channel_kpis sessionsC2 ordersC2 = [dailyC2a, dailyC2b] := by
  have hk : sessionKeys sessionsC2 = [("d1", "A"), ("d2", "A")] := by
    simp [sessionKeys, sessionKey, sessionsC2, List.dedup_cons_of_not_mem]
  rw [compute_daily_channel_kpis, hk]
  have h1 : mkDailyRow sessionsC2 ordersC2 ("d1", "A") = dailyC2a := by
    simp [mkDailyRow, sessionGroup, sessionKey, sessionsC2, ordersC2, effSpend, effSpendVal,
      ordersAt, revenueAt, orderGroup, orderKey, resolvedChannel, guardedDiv, dailyC2a,
      DailyRow.mk.injEq]
  have h2 : mkDailyRow sessionsC2 ordersC2 ("d2", "A") = dailyC2b := by
    simp [mkDailyRow, sessionGroup, sessionKey, sessionsC2, ordersC2, effSpend, effSpendVal,
      ordersAt, revenueAt, orderGroup, orderKey, resolvedChannel, guardedDiv, dailyC2b,
      DailyRow.mk.injEq] <;> norm_num
  rw [List.map_cons, List.map_cons, List.map_nil, h1, h2]

theorem summaryC2_eval :
    channel_summary [dailyC2a, dailyC2b] = [summaryC2] := by
  have hs : mkSummaryRow [dailyC2a, dailyC2b] "A" = summaryC2 := by
    simp [mkSummaryRow, channelGroup, dailyC2a, dailyC2b, guardedDiv, summaryC2,
      SummaryRow.mk.injEq] <;> norm_num
  have hc : (List.map DailyRow.channel [dailyC2a, dailyC2b]).dedup = ["A"] := by
    simp [dailyC2a, dailyC2b, List.dedup_cons_of_mem]
  rw [channel_summary, hc]
  simp [List.insertionSort, hs]

theorem computeC5_eval :
    compute_daily_channel_kpis sessionsC5 ordersC5 = [dailyC5] := by
  have hk : sessionKeys sessionsC5 = [("d1", "A")] := by
    simp [sessionKeys, sessionKey, sessionsC5]
  rw [compute_daily_channel_kpis, hk]
  have h1 : mkDailyRow sessionsC5 ordersC5 ("d1", "A") = dailyC5 := by
    simp [mkDailyRow, sessionGroup, sessionKey, sessionsC5, ordersC5, ordersC5base,
      dupRowC5, appendOrder, effSpend, effSpendVal, ordersAt, revenueAt, orderGroup, orderKey,
      resolvedChannel, guardedDiv, dailyC5, DailyRow.mk.injEq] <;> norm_num
  rw [List.map_cons, List.map_nil, h1]

theorem computeC4_eval :
    compute_daily_channel_kpis sessionsC5 emptyOrders = [dailyC4] := by
  have hk : sessionKeys sessionsC5 = [("d1", "A")] := by
    simp [sessionKeys, sessionKey, sessionsC5]
  rw [compute_daily_channel_kpis, hk]
  have h1 : mkDailyRow sessionsC5 emptyOrders ("d1", "A") = dailyC4 := by
    simp [mkDailyRow, sessionGroup, sessionKey, sessionsC5, emptyOrders, effSpend, effSpendVal,
      ordersAt, revenueAt, orderGroup, orderKey, resolvedChannel, guardedDiv, dailyC4,
      DailyRow.mk.injEq] <;> norm_num
  rw [List.map_cons, List.map_nil, h1]

theorem fitC9_eval : simple_response_curve dfC9 = some (50, 1) := by
  have hd : dailyDates dfC9 = ["d1", "d2", "d3"] := by
    simp [dailyDates, dfC9, List.dedup_cons_of_not_mem]
  have hp : fitPoints dfC9 = [(100, 150), (200, 250), (300, 350)] := by
    rw [fitPoints, hd]
    simp [dateSpend, dateRevenue, dfC9]
  rw [simple_response_curve]
  rw [hp]
  norm_num [sumX, sumY, sumXX, sumXY, polyfit1]

theorem guardedDiv_spec (num den : ℚ) :
    (guardedDiv num den = none ↔ den ≤ 0) ∧
      (0 < den → guardedDiv num den = some (num / den)) :=
  ⟨guardedDiv_eq_none_iff num den, fun h => guardedDiv_of_pos num h⟩

/-! ## Claim theorems -/

/-- C1, counterexample: the claim prescribes a per-cell fallback (a session
row whose adjusted spend is missing but whose raw spend is defined
contributes its raw spend).  On `sessionsC1` — both spend columns present,
the single row's adjusted cell missing, raw cell 5 — the aggregator's Spend
is 0, not the prescribed 5. -/
theorem C1_per_cell_fallback_counterexample :
    ¬ (∀ (s : SessionTable) (o : OrderTable) (r : DailyRow),
        r ∈ compute_daily_channel_kpis s o →
        r.Spend =
          ((sessionGroup s (r.date, r.channel)).map (effSpendSpec s)).sum) := by
  intro h
  have hmem : dailyC1 ∈ compute_daily_channel_kpis sessionsC1 emptyOrders := by
    rw [computeC1_eval]
    exact List.mem_singleton_self _
  have hval := h sessionsC1 emptyOrders dailyC1 hmem
  have hgrp : sessionGroup sessionsC1 (dailyC1.date, dailyC1.channel) =
      sessionsC1.rows := by
    simp [sessionGroup, sessionKey, sessionsC1, dailyC1]
  rw [hgrp] at hval
  have hzero : dailyC1.Spend = 0 := rfl
  rw [hzero] at hval
  simp [sessionsC1, effSpendSpec] at hval

/-- C1, amended: on a sessions table with at least one spend column (with
neither present, line 65 raises `AttributeError` and no daily table is
produced at all), the effective Spend of each daily row is the sum of the
per-row effective spends of its session group, and the per-row effective
spend falls back at column level — if the adjusted-spend column is present,
the row contributes its adjusted cell with missing treated as 0, regardless
of the raw cell; otherwise the raw-spend column's cell with missing treated
as 0.  The second conjunct records that on such a table the spend
resolution of line 65 succeeds (`effSpend` is `some _`) with exactly that
value. -/
theorem C1_column_level_fallback (s : SessionTable) (o : OrderTable) (r : DailyRow)
    (hcol : s.hasAdjSpend = true ∨ s.hasSpendGbp = true)
    (hr : r ∈ compute_daily_channel_kpis s o) :
    r.Spend = ((sessionGroup s (r.date, r.channel)).map
      (fun row => if s.hasAdjSpend then row.adjSpend.getD 0
                  else row.spendGbp.getD 0)).sum ∧
    ∀ row : SessionRow, effSpend s row =
      some (if s.hasAdjSpend then row.adjSpend.getD 0
            else row.spendGbp.getD 0) := by
  have hval : ∀ row : SessionRow, effSpend s row =
      some (if s.hasAdjSpend then row.adjSpend.getD 0
            else row.spendGbp.getD 0) := by
    intro row
    cases h1 : s.hasAdjSpend with
    | true => simp [effSpend, h1]
    | false =>
      have h2 : s.hasSpendGbp = true := hcol.resolve_left (by simp [h1])
      simp [effSpend, h1, h2]
  obtain ⟨k, hk, rfl⟩ := mem_compute_iff.mp hr
  refine ⟨?_, hval⟩
  rw [mkDailyRow_key, mkDailyRow_Spend]
  apply congrArg List.sum
  apply List.map_congr_left
  intro row hrow
  rw [effSpendVal, hval row]
  rfl

/-- C1 witness: the amended fallback instantiated on `sessionsC1`, whose
adjusted-spend column is present. -/
theorem C1_column_level_fallback_witness :
    (sessionsC1.hasAdjSpend = true ∨ sessionsC1.hasSpendGbp = true) ∧
    dailyC1 ∈ compute_daily_channel_kpis sessionsC1 emptyOrders ∧
    dailyC1.Spend =
      ((sessionGroup sessionsC1 (dailyC1.date, dailyC1.channel)).map
        (fun row => if sessionsC1.hasAdjSpend then row.adjSpend.getD 0
                    else row.spendGbp.getD 0)).sum := by
  have hcol : sessionsC1.hasAdjSpend = true ∨ sessionsC1.hasSpendGbp = true :=
    Or.inl rfl
  have hmem : dailyC1 ∈ compute_daily_channel_kpis sessionsC1 emptyOrders := by
    rw [computeC1_eval]
    exact List.mem_singleton_self _
  exact ⟨hcol, hmem,
    (C1_column_level_fallback sessionsC1 emptyOrders dailyC1 hcol hmem).1⟩

/-- C2: every row of the channel summary carries the sums of the five base
counters over the daily rows of its channel, and its five ratios are the
ratio formulas applied to those summed totals; moreover on the concrete
two-day input the per-day ROAS values are 1 and 3 (mean 2) while the summary
ROAS is the ratio of sums 5/2 — the output equals the ratio of sums, not the
average of ratios. -/
theorem C2_summary_is_ratio_of_sums :
    (∀ (df : List DailyRow) (r : SummaryRow), r ∈ channel_summary df →
      r.Sessions = ((channelGroup df r.Channel).map DailyRow.Sessions).sum ∧
      r.Clicks = ((channelGroup df r.Channel).map DailyRow.Clicks).sum ∧
      r.Spend = ((channelGroup df r.Channel).map DailyRow.Spend).sum ∧
      r.Orders = ((channelGroup df r.Channel).map DailyRow.Orders).sum ∧
      r.Revenue = ((channelGroup df r.Channel).map DailyRow.Revenue).sum ∧
      r.CVR = guardedDiv r.Orders r.Clicks ∧
      r.CPC = guardedDiv r.Spend r.Clicks ∧
      r.CAC = guardedDiv r.Spend r.Orders ∧
      r.AOV = guardedDiv r.Revenue r.Orders ∧
      r.ROAS = guardedDiv r.Revenue r.Spend) ∧
    (compute_daily_channel_kpis sessionsC2 ordersC2 = [dailyC2a, dailyC2b] ∧
     channel_summary [dailyC2a, dailyC2b] = [summaryC2] ∧
     dailyC2a.ROAS = some 1 ∧ dailyC2b.ROAS = some 3 ∧
     summaryC2.ROAS = some (5/2) ∧ ((1 : ℚ) + 3) / 2 ≠ (5/2 : ℚ)) := by
  constructor
  · intro df r hr
    obtain ⟨c, hc, rfl⟩ := mem_channel_summary_iff.mp hr
    rw [mkSummaryRow_Channel]
    obtain ⟨s1, s2, s3, s4, s5⟩ := mkSummaryRow_sums df c
    obtain ⟨t1, t2, t3, t4, t5⟩ := mkSummaryRow_ratios df c
    exact ⟨s1, s2, s3, s4, s5, t1, t2, t3, t4, t5⟩
  · exact ⟨computeC2_eval, summaryC2_eval, rfl, rfl, rfl, by norm_num⟩

/-- C2 witness: the summary-row equations instantiated on the two-day
input. -/
theorem C2_summary_is_ratio_of_sums_witness :
    summaryC2 ∈ channel_summary [dailyC2a, dailyC2b] ∧
    summaryC2.ROAS = guardedDiv summaryC2.Revenue summaryC2.Spend := by
  have hmem : summaryC2 ∈ channel_summary [dailyC2a, dailyC2b] := by
    rw [summaryC2_eval]
    exact List.mem_singleton_self _
  exact ⟨hmem,
    (C2_summary_is_ratio_of_sums.1 [dailyC2a, dailyC2b] summaryC2
      hmem).2.2.2.2.2.2.2.2.2⟩

/-- C3: in the daily KPI table and in the channel summary, each of the five
ratio cells is the missing value exactly when its denominator is nonpositive
and is the exact quotient when the denominator is positive — never an error
or an infinity. -/
theorem C3_ratio_guards (s : SessionTable) (o : OrderTable) (df : List DailyRow) :
    (∀ r ∈ compute_daily_channel_kpis s o,
      ((r.CVR = none ↔ r.Clicks ≤ 0) ∧
        (0 < r.Clicks → r.CVR = some (r.Orders / r.Clicks))) ∧
      ((r.CPC_calc = none ↔ r.Clicks ≤ 0) ∧
        (0 < r.Clicks → r.CPC_calc = some (r.Spend / r.Clicks))) ∧
      ((r.CAC = none ↔ r.Orders ≤ 0) ∧
        (0 < r.Orders → r.CAC = some (r.Spend / r.Orders))) ∧
      ((r.AOV = none ↔ r.Orders ≤ 0) ∧
        (0 < r.Orders → r.AOV = some (r.Revenue / r.Orders))) ∧
      ((r.ROAS = none ↔ r.Spend ≤ 0) ∧
        (0 < r.Spend → r.ROAS = some (r.Revenue / r.Spend)))) ∧
    (∀ r ∈ channel_summary df,
      ((r.CVR = none ↔ r.Clicks ≤ 0) ∧
        (0 < r.Clicks → r.CVR = some (r.Orders / r.Clicks))) ∧
      ((r.CPC = none ↔ r.Clicks ≤ 0) ∧
        (0 < r.Clicks → r.CPC = some (r.Spend / r.Clicks))) ∧
      ((r.CAC = none ↔ r.Orders ≤ 0) ∧
        (0 < r.Orders → r.CAC = some (r.Spend / r.Orders))) ∧
      ((r.AOV = none ↔ r.Orders ≤ 0) ∧
        (0 < r.Orders → r.AOV = some (r.Revenue / r.Orders))) ∧
      ((r.ROAS = none ↔ r.Spend ≤ 0) ∧
        (0 < r.Spend → r.ROAS = some (r.Revenue / r.Spend)))) := by
  constructor
  · intro r hr
    obtain ⟨k, hk, rfl⟩ := mem_compute_iff.mp hr
    exact ⟨guardedDiv_spec _ _, guardedDiv_spec _ _, guardedDiv_spec _ _,
      guardedDiv_spec _ _, guardedDiv_spec _ _⟩
  · intro r hr
    obtain ⟨c, hc, rfl⟩ := mem_channel_summary_iff.mp hr
    exact ⟨guardedDiv_spec _ _, guardedDiv_spec _ _, guardedDiv_spec _ _,
      guardedDiv_spec _ _, guardedDiv_spec _ _⟩

/-- C3 witness: the ROAS guard instantiated on a concrete daily row. -/
theorem C3_ratio_guards_witness :
    dailyC2a ∈ compute_daily_channel_kpis sessionsC2 ordersC2 ∧
    (dailyC2a.ROAS = none ↔ dailyC2a.Spend ≤ 0) := by
  have hmem : dailyC2a ∈ compute_daily_channel_kpis sessionsC2 ordersC2 := by
    rw [computeC2_eval]
    exact List.mem_cons_self _ _
  exact ⟨hmem,
    ((C3_ratio_guards sessionsC2 ordersC2 []).1 dailyC2a hmem).2.2.2.2.1⟩

/-- C4: the (Date, Channel) pairs of the daily output are exactly the
(Date, Channel) pairs occurring in the sessions table, and a daily row with
no matching order group has Orders = 0 and Revenue = 0. -/
theorem C4_left_join_universe (s : SessionTable) (o : OrderTable) :
    (∀ k : String × String,
      (∃ r ∈ compute_daily_channel_kpis s o, (r.date, r.channel) = k) ↔
      (∃ sr ∈ s.rows, sessionKey sr = k)) ∧
    (∀ r ∈ compute_daily_channel_kpis s o,
      (∀ orow ∈ o.rows, orderKey o orow ≠ (r.date, r.channel)) →
      r.Orders = 0 ∧ r.Revenue = 0) := by
  constructor
  · intro k
    constructor
    · rintro ⟨r, hr, hk⟩
      obtain ⟨k2, hk2, rfl⟩ := mem_compute_iff.mp hr
      rw [mkDailyRow_key] at hk
      subst hk
      rw [sessionKeys, List.mem_dedup, List.mem_map] at hk2
      exact hk2
    · rintro ⟨sr, hsr, hk⟩
      refine ⟨mkDailyRow s o k, ?_, mkDailyRow_key s o k⟩
      refine mem_compute_iff.mpr ⟨k, ?_, rfl⟩
      rw [sessionKeys, List.mem_dedup, List.mem_map]
      exact ⟨sr, hsr, hk⟩
  · intro r hr hnone
    obtain ⟨k, hk, rfl⟩ := mem_compute_iff.mp hr
    rw [mkDailyRow_key] at hnone
    have hemp : orderGroup o k = [] := by
      rw [orderGroup, List.filter_eq_nil_iff]
      intro x hx
      simp only [decide_eq_true_eq]
      exact hnone x hx
    constructor
    · rw [mkDailyRow_Orders, ordersAt, hemp]
      simp
    · rw [mkDailyRow_Revenue, revenueAt, hemp]
      simp

/-- C4 witness: with an empty orders table the unique daily row has
Orders = 0 and Revenue = 0. -/
theorem C4_left_join_universe_witness :
    dailyC4 ∈ compute_daily_channel_kpis sessionsC5 emptyOrders ∧
    dailyC4.Orders = 0 ∧ dailyC4.Revenue = 0 := by
  have hmem : dailyC4 ∈ compute_daily_channel_kpis sessionsC5 emptyOrders := by
    rw [computeC4_eval]
    exact List.mem_singleton_self _
  refine ⟨hmem, (C4_left_join_universe sessionsC5 emptyOrders).2 dailyC4 hmem ?_⟩
  intro orow horow
  simp [emptyOrders] at horow

/-- C5: each daily row's Orders is the number of distinct order ids of its
(Date, resolved channel) order group and Revenue is the group's revenue sum;
appending a duplicate order row (same key and order id as an existing row)
leaves the Orders column unchanged; and on a concrete input with two order
rows sharing one order id the count is 1, not the row count 2. -/
theorem C5_distinct_order_count :
    (∀ (s : SessionTable) (o : OrderTable), ∀ r ∈ compute_daily_channel_kpis s o,
      r.Orders =
        (((orderGroup o (r.date, r.channel)).map OrderRow.orderId).toFinset.card : ℚ) ∧
      r.Revenue =
        ((orderGroup o (r.date, r.channel)).map (fun x => x.revenue.getD 0)).sum) ∧
    (∀ (s : SessionTable) (o : OrderTable) (dup : OrderRow),
      (∃ x ∈ o.rows, orderKey o x = orderKey o dup ∧ x.orderId = dup.orderId) →
      (compute_daily_channel_kpis s (appendOrder o dup)).map DailyRow.Orders =
        (compute_daily_channel_kpis s o).map DailyRow.Orders) ∧
    (compute_daily_channel_kpis sessionsC5 ordersC5 = [dailyC5] ∧
     dailyC5.Orders = 1 ∧ ordersC5.rows.length = 2) := by
  refine ⟨?_, ?_, computeC5_eval, rfl, rfl⟩
  · intro s o r hr
    obtain ⟨k, hk, rfl⟩ := mem_compute_iff.mp hr
    rw [mkDailyRow_key]
    exact ⟨mkDailyRow_Orders s o k, mkDailyRow_Revenue s o k⟩
  · intro s o dup hdup
    unfold compute_daily_channel_kpis
    rw [List.map_map, List.map_map]
    apply List.map_congr_left
    intro k hk
    simp only [Function.comp_apply]
    rw [mkDailyRow_Orders, mkDailyRow_Orders, ordersAt_append_dup hdup]

/-- C5 witness: appending the duplicate row to the one-row orders table
leaves the Orders column unchanged. -/
theorem C5_distinct_order_count_witness :
    (∃ x ∈ ordersC5base.rows, orderKey ordersC5base x = orderKey ordersC5base dupRowC5 ∧
      x.orderId = dupRowC5.orderId) ∧
    (compute_daily_channel_kpis sessionsC5
        (appendOrder ordersC5base dupRowC5)).map DailyRow.Orders =
      (compute_daily_channel_kpis sessionsC5 ordersC5base).map DailyRow.Orders := by
  have hex : ∃ x ∈ ordersC5base.rows,
      orderKey ordersC5base x = orderKey ordersC5base dupRowC5 ∧
      x.orderId = dupRowC5.orderId :=
    ⟨{ date := "d1", channelFt := "", channel := "A", orderId := "o1",
       revenue := some 2 }, List.mem_singleton_self _, rfl, rfl⟩
  exact ⟨hex, C5_distinct_order_count.2.1 sessionsC5 ordersC5base dupRowC5 hex⟩

/-- C6: the channel summary is sorted by ROAS descending, and every row with
undefined ROAS comes after all rows with defined ROAS: for any two rows in
output order, either the later row's ROAS is undefined, or both are defined
and the later one is no larger. -/
theorem C6_summary_sorted_by_roas (df : List DailyRow) :
    (channel_summary df).Pairwise (fun a b =>
      b.ROAS = none ∨ ∃ x y, a.ROAS = some x ∧ b.ROAS = some y ∧ y ≤ x) := by
  have h : (channel_summary df).Pairwise roasLE :=
    List.sorted_insertionSort roasLE _
  refine h.imp ?_
  intro a b hab
  unfold roasLE roasBefore at hab
  cases ha : a.ROAS with
  | none =>
    cases hb : b.ROAS with
    | none => exact Or.inl rfl
    | some y =>
      rw [ha, hb] at hab
      simp at hab
  | some x =>
    cases hb : b.ROAS with
    | none => exact Or.inl rfl
    | some y =>
      rw [ha, hb] at hab
      exact Or.inr ⟨x, y, rfl, rfl, by simpa using hab⟩

/-- C7: every order group key's channel comes from the priority rule
(`channel_ft` column if present, else `channel`, else the constant `"All"`),
and when both channel columns are absent every group's channel is `"All"`. -/
theorem C7_order_channel_fallback (o : OrderTable) :
    (∀ k ∈ orderKeys o, ∃ r ∈ o.rows,
      k = (r.date, if o.hasChannelFt then r.channelFt
                   else if o.hasChannel then r.channel else "All")) ∧
    (o.hasChannelFt = false → o.hasChannel = false →
      ∀ k ∈ orderKeys o, k.2 = "All") := by
  constructor
  · intro k hk
    rw [orderKeys, List.mem_dedup, List.mem_map] at hk
    obtain ⟨r, hr, hkr⟩ := hk
    exact ⟨r, hr, hkr.symm⟩
  · intro hft hch k hk
    rw [orderKeys, List.mem_dedup, List.mem_map] at hk
    obtain ⟨r, hr, hkr⟩ := hk
    rw [← hkr]
    simp [orderKey, resolvedChannel, hft, hch]

/-- C7 witness: an orders table lacking both channel columns groups its only
row under channel `"All"`. -/
theorem C7_order_channel_fallback_witness :
    orderKeys ordersNoChannelCols = [("d1", "All")] ∧
    ∀ k ∈ orderKeys ordersNoChannelCols, k.2 = "All" :=
  ⟨by simp [orderKeys, orderKey, resolvedChannel, ordersNoChannelCols],
   (C7_order_channel_fallback ordersNoChannelCols).2 rfl rfl⟩

/-- C8: when the per-date totals number fewer than two or their total spend
is zero, the response fit is the undefined value, and the pipeline still
produces the daily table and the channel summary unchanged. -/
theorem C8_degenerate_fit :
    (∀ df : List DailyRow,
      (fitPoints df).length < 2 ∨ sumX (fitPoints df) = 0 →
      simple_response_curve df = none) ∧
    (∀ (s : SessionTable) (o : OrderTable),
      (fitPoints (compute_daily_channel_kpis s o)).length < 2 ∨
        sumX (fitPoints (compute_daily_channel_kpis s o)) = 0 →
      corePipeline s o = (compute_daily_channel_kpis s o,
        channel_summary (compute_daily_channel_kpis s o), none)) := by
  have hnone : ∀ df : List DailyRow,
      (fitPoints df).length < 2 ∨ sumX (fitPoints df) = 0 →
      simple_response_curve df = none := by
    intro df h
    simp only [simple_response_curve]
    rw [if_pos h]
  exact ⟨hnone, fun s o h => by
    simp only [corePipeline]
    rw [hnone _ h]⟩

/-- C8 witness: a single-date input makes the fit undefined while the daily
and summary outputs are still produced. -/
theorem C8_degenerate_fit_witness :
    ((fitPoints (compute_daily_channel_kpis sessionsC5 ordersC5)).length < 2 ∨
      sumX (fitPoints (compute_daily_channel_kpis sessionsC5 ordersC5)) = 0) ∧
    corePipeline sessionsC5 ordersC5 = (compute_daily_channel_kpis sessionsC5 ordersC5,
      channel_summary (compute_daily_channel_kpis sessionsC5 ordersC5), none) := by
  have hc : (fitPoints (compute_daily_channel_kpis sessionsC5 ordersC5)).length < 2 ∨
      sumX (fitPoints (compute_daily_channel_kpis sessionsC5 ordersC5)) = 0 := by
    left
    rw [computeC5_eval]
    simp [fitPoints, dailyDates, dailyC5]
  exact ⟨hc, C8_degenerate_fit.2 sessionsC5 ordersC5 hc⟩

/-! ## Least squares: the fitted coefficients minimise the residual sum -/

theorem sumX_cons (p : ℚ × ℚ) (l : List (ℚ × ℚ)) :
    sumX (p :: l) = p.1 + sumX l := by
  simp [sumX]

theorem sumY_cons (p : ℚ × ℚ) (l : List (ℚ × ℚ)) :
    sumY (p :: l) = p.2 + sumY l := by
  simp [sumY]

theorem sumXX_cons (p : ℚ × ℚ) (l : List (ℚ × ℚ)) :
    sumXX (p :: l) = p.1 ^ 2 + sumXX l := by
  simp [sumXX]

theorem sumXY_cons (p : ℚ × ℚ) (l : List (ℚ × ℚ)) :
    sumXY (p :: l) = p.1 * p.2 + sumXY l := by
  simp [sumXY]

theorem sumYY_cons (p : ℚ × ℚ) (l : List (ℚ × ℚ)) :
    sumYY (p :: l) = p.2 ^ 2 + sumYY l := by
  simp [sumYY]

theorem ssr_cons (p : ℚ × ℚ) (l : List (ℚ × ℚ)) (a b : ℚ) :
    ssr (p :: l) a b = (p.2 - a - b * p.1) ^ 2 + ssr l a b := by
  simp [ssr]

theorem ssr_expand (pts : List (ℚ × ℚ)) (a b : ℚ) :
    ssr pts a b = sumYY pts - 2*a*sumY pts - 2*b*sumXY pts + 2*a*b*sumX pts
      + (pts.length : ℚ)*a^2 + b^2*sumXX pts := by
  induction pts with
  | nil => simp [ssr, sumYY, sumY, sumXY, sumX, sumXX]
  | cons p l ih =>
    rw [ssr_cons, ih, sumYY_cons, sumY_cons, sumXY_cons, sumX_cons, sumXX_cons,
      List.length_cons]
    push_cast
    ring

theorem shiftSq_sum_expand (pts : List (ℚ × ℚ)) (t u : ℚ) :
    ((pts.map (fun p => (t + u * p.1) ^ 2)).sum) =
      (pts.length : ℚ)*t^2 + 2*t*u*sumX pts + u^2*sumXX pts := by
  induction pts with
  | nil => simp [sumX, sumXX]
  | cons p l ih =>
    rw [List.map_cons, List.sum_cons, ih, sumX_cons, sumXX_cons, List.length_cons]
    push_cast
    ring

theorem shiftSq_sum_nonneg (pts : List (ℚ × ℚ)) (t u : ℚ) :
    0 ≤ ((pts.map (fun p => (t + u * p.1) ^ 2)).sum) := by
  apply List.sum_nonneg
  intro x hx
  obtain ⟨p, hp, rfl⟩ := List.mem_map.mp hx
  exact sq_nonneg _

theorem ssr_min_of_det_ne_zero (pts : List (ℚ × ℚ))
    (hd : (pts.length : ℚ) * sumXX pts - sumX pts ^ 2 ≠ 0) (a b : ℚ) :
    ssr pts
        ((sumY pts * sumXX pts - sumX pts * sumXY pts) /
          ((pts.length : ℚ) * sumXX pts - sumX pts ^ 2))
        (((pts.length : ℚ) * sumXY pts - sumX pts * sumY pts) /
          ((pts.length : ℚ) * sumXX pts - sumX pts ^ 2)) ≤ ssr pts a b := by
  have key : ssr pts a b = ssr pts
      ((sumY pts * sumXX pts - sumX pts * sumXY pts) /
        ((pts.length : ℚ) * sumXX pts - sumX pts ^ 2))
      (((pts.length : ℚ) * sumXY pts - sumX pts * sumY pts) /
        ((pts.length : ℚ) * sumXX pts - sumX pts ^ 2)) +
      ((pts.map (fun p =>
        ((a - (sumY pts * sumXX pts - sumX pts * sumXY pts) /
            ((pts.length : ℚ) * sumXX pts - sumX pts ^ 2)) +
         (b - ((pts.length : ℚ) * sumXY pts - sumX pts * sumY pts) /
            ((pts.length : ℚ) * sumXX pts - sumX pts ^ 2)) * p.1) ^ 2)).sum) := by
    rw [ssr_expand, ssr_expand, shiftSq_sum_expand]
    field_simp
    ring
  rw [key]
  have hq := shiftSq_sum_nonneg pts
      (a - (sumY pts * sumXX pts - sumX pts * sumXY pts) /
        ((pts.length : ℚ) * sumXX pts - sumX pts ^ 2))
      (b - ((pts.length : ℚ) * sumXY pts - sumX pts * sumY pts) /
        ((pts.length : ℚ) * sumXX pts - sumX pts ^ 2))
  linarith

theorem sum_nonneg_all_zero {l : List ℚ} (hnn : ∀ x ∈ l, 0 ≤ x) (h : l.sum = 0) :
    ∀ x ∈ l, x = 0 := by
  induction l with
  | nil => simp
  | cons y l ih =>
    rw [List.sum_cons] at h
    have hy : 0 ≤ y := hnn y (List.mem_cons_self y l)
    have hl : 0 ≤ l.sum :=
      List.sum_nonneg (fun x hx => hnn x (List.mem_cons_of_mem _ hx))
    have hy0 : y = 0 := le_antisymm (by linarith) hy
    intro x hx
    rcases List.mem_cons.mp hx with rfl | hx2
    · exact hy0
    · exact ih (fun z hz => hnn z (List.mem_cons_of_mem _ hz)) (by linarith) x hx2

theorem all_x_eq_of_det_zero {pts : List (ℚ × ℚ)} (hne : pts ≠ [])
    (hd : (pts.length : ℚ) * sumXX pts - sumX pts ^ 2 = 0) :
    ∀ p ∈ pts, p.1 = sumX pts / (pts.length : ℚ) := by
  have hn : (0 : ℚ) < (pts.length : ℚ) := by
    exact_mod_cast List.length_pos.mpr hne
  have hsum :
      ((pts.map (fun p =>
        ((-(sumX pts / (pts.length : ℚ))) + 1 * p.1) ^ 2)).sum) = 0 := by
    rw [shiftSq_sum_expand]
    field_simp
    linear_combination ((pts.length : ℚ) ^ 2) * hd
  intro p hp
  have hz := sum_nonneg_all_zero
    (l := pts.map (fun p => ((-(sumX pts / (pts.length : ℚ))) + 1 * p.1) ^ 2))
    (fun x hx => by
      obtain ⟨q, hq, rfl⟩ := List.mem_map.mp hx
      exact sq_nonneg _) hsum
  have hmem := hz _ (List.mem_map.mpr ⟨p, hp, rfl⟩)
  have h2 : (-(sumX pts / (pts.length : ℚ))) + 1 * p.1 = 0 := by
    exact sq_eq_zero_iff.mp hmem
  linarith

theorem ssr_shift_of_all_x_eq {pts : List (ℚ × ℚ)} {c : ℚ}
    (hx : ∀ p ∈ pts, p.1 = c) (a b : ℚ) :
    ssr pts a b = ssr pts (a + b * c) 0 := by
  unfold ssr
  apply congrArg List.sum
  apply List.map_congr_left
  intro p hp
  rw [hx p hp]
  ring

theorem ssr_intercept_min {pts : List (ℚ × ℚ)} (hn : (0 : ℚ) < (pts.length : ℚ))
    (t : ℚ) :
    ssr pts (sumY pts / (pts.length : ℚ)) 0 ≤ ssr pts t 0 := by
  have key : ssr pts t 0 - ssr pts (sumY pts / (pts.length : ℚ)) 0 =
      (pts.length : ℚ) * (t - sumY pts / (pts.length : ℚ)) ^ 2 := by
    rw [ssr_expand, ssr_expand]
    field_simp
    ring
  have hq := mul_nonneg hn.le (sq_nonneg (t - sumY pts / (pts.length : ℚ)))
  linarith

theorem ssr_min_of_det_zero (pts : List (ℚ × ℚ)) (hne : pts ≠ [])
    (hd : (pts.length : ℚ) * sumXX pts - sumX pts ^ 2 = 0) (a b : ℚ) :
    ssr pts
        (sumY pts / (pts.length : ℚ) /
          (1 + (sumX pts / (pts.length : ℚ)) ^ 2))
        (sumX pts / (pts.length : ℚ) * (sumY pts / (pts.length : ℚ)) /
          (1 + (sumX pts / (pts.length : ℚ)) ^ 2)) ≤ ssr pts a b := by
  have hn : (0 : ℚ) < (pts.length : ℚ) := by
    exact_mod_cast List.length_pos.mpr hne
  have hx := all_x_eq_of_det_zero hne hd
  have h1c : (0 : ℚ) < 1 + (sumX pts / (pts.length : ℚ)) ^ 2 := by positivity
  have hsum : sumY pts / (pts.length : ℚ) /
        (1 + (sumX pts / (pts.length : ℚ)) ^ 2) +
      sumX pts / (pts.length : ℚ) * (sumY pts / (pts.length : ℚ)) /
        (1 + (sumX pts / (pts.length : ℚ)) ^ 2) *
        (sumX pts / (pts.length : ℚ)) =
      sumY pts / (pts.length : ℚ) := by
    field_simp
    ring
  rw [ssr_shift_of_all_x_eq hx, ssr_shift_of_all_x_eq hx a b, hsum]
  exact ssr_intercept_min hn _

theorem polyfit1_minimises (pts : List (ℚ × ℚ)) (hne : pts ≠ []) (a b : ℚ) :
    ssr pts (polyfit1 pts).2 (polyfit1 pts).1 ≤ ssr pts a b := by
  simp only [polyfit1]
  by_cases hd : (pts.length : ℚ) * sumXX pts - sumX pts ^ 2 = 0
  · rw [if_pos hd]
    exact ssr_min_of_det_zero pts hne hd a b
  · rw [if_neg hd]
    exact ssr_min_of_det_ne_zero pts hd a b

/-- C9: whenever the response fit returns coefficients `(a, b)` they minimise
the sum of squared residuals of `Revenue = a + b·Spend` over the per-date
totals; under the claim's hypotheses (at least two dates, nonzero total
spend) the fit does return coefficients; and on the concrete date-totals
(100, 150), (200, 250), (300, 350) it returns exactly intercept 50 and
slope 1. -/
theorem C9_ols_fit :
    (∀ (df : List DailyRow) (a b : ℚ), simple_response_curve df = some (a, b) →
      ∀ a2 b2 : ℚ, ssr (fitPoints df) a b ≤ ssr (fitPoints df) a2 b2) ∧
    (∀ df : List DailyRow, 2 ≤ (fitPoints df).length → sumX (fitPoints df) ≠ 0 →
      ∃ a b : ℚ, simple_response_curve df = some (a, b)) ∧
    simple_response_curve dfC9 = some (50, 1) := by
  refine ⟨?_, ?_, fitC9_eval⟩
  · intro df a b hfit a2 b2
    simp only [simple_response_curve] at hfit
    by_cases hg : (fitPoints df).length < 2 ∨ sumX (fitPoints df) = 0
    · rw [if_pos hg] at hfit
      exact absurd hfit (by simp)
    · rw [if_neg hg] at hfit
      have hne : fitPoints df ≠ [] := by
        intro h0
        exact hg (Or.inl (by rw [h0]; simp))
      simp only [Option.some.injEq, Prod.mk.injEq] at hfit
      obtain ⟨ha, hb⟩ := hfit
      subst ha
      subst hb
      exact polyfit1_minimises (fitPoints df) hne a2 b2
  · intro df h2 hx
    simp only [simple_response_curve]
    rw [if_neg (by push_neg; exact ⟨not_lt.mp (by omega), hx⟩)]
    exact ⟨_, _, rfl⟩

/-- C9 witness: the minimisation applied to the concrete three-date input,
comparing the fitted (50, 1) against the zero line. -/
theorem C9_ols_fit_witness :
    simple_response_curve dfC9 = some (50, 1) ∧
    ssr (fitPoints dfC9) 50 1 ≤ ssr (fitPoints dfC9) 0 0 :=
  ⟨fitC9_eval, C9_ols_fit.1 dfC9 50 1 fitC9_eval 0 0⟩

end MarketingKPI
